import Mathlib

/-!
Shallow embedding of the LinkID resolver repository (registry service,
resolver service, the two cache tiers, and the SDK client's transport
retry loop), together with theorems checking the specification's claims
about them.

Python dicts are modelled as association lists that preserve insertion
order (`dictSet` replaces in place, new keys are appended), timestamps as
rationals (`time.time()` values are passed in explicitly as `now`
parameters), and Python `None` as `Option.none`.  Metadata values are
modelled as strings, which is the only value shape the registry ever
reads or compares.
-/

/-- Decidable equality of `Except` results, so that concrete runs can be
checked by evaluation. -/
instance exceptDecEq {ε α : Type} [DecidableEq ε] [DecidableEq α] :
    DecidableEq (Except ε α) := fun
  | .ok a, .ok b =>
    if h : a = b then .isTrue (by rw [h])
    else .isFalse (fun hh => h (Except.ok.inj hh))
  | .ok _, .error _ => .isFalse (fun hh => Except.noConfusion hh)
  | .error _, .ok _ => .isFalse (fun hh => Except.noConfusion hh)
  | .error e, .error f =>
    if h : e = f then .isTrue (by rw [h])
    else .isFalse (fun hh => h (Except.error.inj hh))

/-- Python `d.get(k)`: value of the first binding of `k`, or `None`. -/
def dictGet {α : Type} (m : List (String × α)) (k : String) : Option α :=
  match m with
  | [] => none
  | (k', v) :: rest => if k' = k then some v else dictGet rest k

/-- Python `d[k] = v`: replace the binding in place, else append. -/
def dictSet {α : Type} (m : List (String × α)) (k : String) (v : α) :
    List (String × α) :=
  match m with
  | [] => [(k, v)]
  | (k', v') :: rest =>
    if k' = k then (k', v) :: rest else (k', v') :: dictSet rest k v

/-- Python `k in d`. -/
def dictContains {α : Type} (m : List (String × α)) (k : String) : Bool :=
  (dictGet m k).isSome

/-- Python `d.setdefault(k, v)`: insert only when the key is absent. -/
def dictSetdefault {α : Type} (m : List (String × α)) (k : String) (v : α) :
    List (String × α) :=
  if dictContains m k then m else m ++ [(k, v)]

/-- Python `d.update(other)`: merge `other` into `d`, overwriting keys. -/
def dictUpdate {α : Type} (m other : List (String × α)) :
    List (String × α) :=
  other.foldl (fun acc p => dictSet acc p.1 p.2) m

/-- Python `d.pop(k, None)`: remove the first binding of `k`. -/
def dictPop {α : Type} (m : List (String × α)) (k : String) :
    List (String × α) :=
  match m with
  | [] => []
  | (k', v') :: rest =>
    if k' = k then rest else (k', v') :: dictPop rest k

/-- Truthiness of a Python value that is either `None` or a string:
`None` and the empty string are falsy. -/
def truthy : Option String → Bool
  | none => false
  | some s => s ≠ ""

/-- Python `a or b` over string-or-None values. -/
def pyOr (a b : Option String) : Option String :=
  if truthy a then a else b

/-- Python `int(q)` on a float modelled as a rational: truncation toward
zero. -/
def pyInt (q : ℚ) : ℤ := Int.tdiv q.num q.den

/-- Metadata map: an open string-keyed map with string values
(`registry_service.py` only ever reads and compares string entries). -/
abbrev Meta := List (String × String)

/-- Model of `Tombstone` from `registry_service.py`: `reason` (optional free
text) and `at` (a timestamp, defaulted to `time.time()` at creation). -/
structure Tombstone where
  reason : Option String
  at_ : ℚ
deriving DecidableEq

/-- Model of `RegistryRecord` from `registry_service.py`.  `target_uri` is
`Option String` because `payload.get(...) or payload.get(...)` can
produce `None`. -/
structure RegistryRecord where
  id : String
  target_uri : Option String
  media_type : Option String
  language : Option String
  metadata : Meta
  created : ℚ
  updated : ℚ
  version : Nat
  withdrawn : Option Tombstone
deriving DecidableEq

/-- The registry's in-memory store `self._store`. -/
abbrev Store := List (String × RegistryRecord)

/-- The errors raised by `registry_service.py`.  `withdrawnErr` carries
the tombstone dict `{"reason": t.reason, "at": t.at}` built by
`LinkIdWithdrawnError.__init__`. -/
inductive RegErr where
  | notFound (link_id : String)
  | withdrawnErr (link_id : String) (reason : Option String) (at_ : ℚ)
  | unauthorized
deriving DecidableEq

/-- The `payload` dict as read by `RegistryService.create`: only the six
keys the method looks up.  An absent key and a `None` value are
indistinguishable to `payload.get`, hence a single `Option`. -/
structure CreatePayload where
  target_uri : Option String := none
  targetUri : Option String := none
  media_type : Option String := none
  mediaType : Option String := none
  language : Option String := none
  metadata : Option Meta := none
deriving DecidableEq

/-- Model of `RegistryService.create`: builds a `RegistryRecord` from the payload
(`created = updated = now`, `version = 1`, no tombstone), sets the
`issuer` metadata entry only if absent (`setdefault`), and stores it
under the freshly generated id (passed here as `link_id`). -/
def RegistryService.create (store : Store) (link_id : String)
    (payload : CreatePayload) (issuer : String) (now : ℚ) :
    RegistryRecord × Store :=
  let record : RegistryRecord :=
    { id := link_id
      target_uri := pyOr payload.target_uri payload.targetUri
      media_type := pyOr payload.media_type payload.mediaType
      language := payload.language
      metadata := dictSetdefault ((payload.metadata).getD []) "issuer" issuer
      created := now
      updated := now
      version := 1
      withdrawn := none }
  (record, dictSet store link_id record)

/-- Model of `RegistryService.get`: `NotFound` if the id is unknown, `Withdrawn`
(carrying the tombstone's reason and time) if a tombstone is present. -/
def RegistryService.get (store : Store) (link_id : String) :
    Except RegErr RegistryRecord :=
  match dictGet store link_id with
  | none => .error (.notFound link_id)
  | some record =>
    match record.withdrawn with
    | some t => .error (.withdrawnErr link_id t.reason t.at_)
    | none => .ok record

/-- Model of `RegistryService.get_any`: fails only `NotFound`; bypasses the
withdrawal state. -/
def RegistryService.get_any (store : Store) (link_id : String) :
    Except RegErr RegistryRecord :=
  match dictGet store link_id with
  | none => .error (.notFound link_id)
  | some record => .ok record

/-- The ownership check in `update`/`withdraw`:
`if issuer and issuer != user_sub: raise UnauthorizedError()`.
True exactly when the stored issuer entry is truthy (present and
non-empty) and differs from the caller. -/
def issuerCheck (metadata : Meta) (user_sub : String) : Bool :=
  match dictGet metadata "issuer" with
  | some s => s ≠ "" && s ≠ user_sub
  | none => false

/-- The `updates` dict as read by `RegistryService.update`.  The outer
`Option` records key presence (`"k" in updates`), the inner one the
value (`None` or a string); `metadata`'s value must additionally pass
`isinstance(..., dict)`, recorded by the inner `Option Meta`. -/
structure Updates where
  target_uri : Option (Option String) := none
  targetUri : Option (Option String) := none
  media_type : Option (Option String) := none
  mediaType : Option (Option String) := none
  language : Option (Option String) := none
  metadata : Option (Option Meta) := none
deriving DecidableEq

/-- The `target_uri` branch of `update`: taken when either key is
present; assigns `updates.get("target_uri") or updates.get("targetUri")`
and sets `changed`. -/
def updTarget (rc : RegistryRecord × Bool) (u : Updates) :
    RegistryRecord × Bool :=
  if u.target_uri.isSome || u.targetUri.isSome then
    ({ rc.1 with target_uri := pyOr u.target_uri.join u.targetUri.join }, true)
  else rc

/-- The `media_type` branch of `update`. -/
def updMedia (rc : RegistryRecord × Bool) (u : Updates) :
    RegistryRecord × Bool :=
  if u.media_type.isSome || u.mediaType.isSome then
    ({ rc.1 with media_type := pyOr u.media_type.join u.mediaType.join }, true)
  else rc

/-- The `language` branch of `update`: taken when the key is present;
assigns `updates["language"]`. -/
def updLanguage (rc : RegistryRecord × Bool) (u : Updates) :
    RegistryRecord × Bool :=
  match u.language with
  | some v => ({ rc.1 with language := v }, true)
  | none => rc

/-- The `metadata` branch of `update`: taken when the key is present
with a dict value; merges the dict into the record's metadata. -/
def updMetadata (rc : RegistryRecord × Bool) (u : Updates) :
    RegistryRecord × Bool :=
  match u.metadata with
  | some (some m) => ({ rc.1 with metadata := dictUpdate rc.1.metadata m }, true)
  | _ => rc

/-- Model of `RegistryService.update`: looks the record up with `get_any`
(bypassing withdrawal), checks ownership, applies the recognized field
branches in source order, and bumps `version`/`updated` exactly when the
`changed` flag was set.  The Python method mutates the stored record in
place and raises on failure; here the pair returns the error (if any)
together with the store as left at that point. -/
def RegistryService.update (store : Store) (link_id : String)
    (u : Updates) (user_sub : String) (now : ℚ) : Option RegErr × Store :=
  match RegistryService.get_any store link_id with
  | .error e => (some e, store)
  | .ok record =>
    if issuerCheck record.metadata user_sub then (some .unauthorized, store)
    else
      let rc := updMetadata (updLanguage (updMedia (updTarget (record, false) u) u) u) u
      let record' :=
        if rc.2 then { rc.1 with version := rc.1.version + 1, updated := now }
        else rc.1
      (none, dictSet store link_id record')

/-- Model of `RegistryService.withdraw`: same lookup and ownership check as
`update`; unconditionally assigns a fresh tombstone built from
`(data or {}).get("reason")` and the current time. -/
def RegistryService.withdraw (store : Store) (link_id : String)
    (data : Option Meta) (user_sub : String) (now : ℚ) :
    Option RegErr × Store :=
  match RegistryService.get_any store link_id with
  | .error e => (some e, store)
  | .ok record =>
    if issuerCheck record.metadata user_sub then (some .unauthorized, store)
    else
      (none, dictSet store link_id
        { record with
          withdrawn := some { reason := dictGet ((data).getD []) "reason", at_ := now } })

/-- Model of `RegistryService.resolve`: `get` plus extraction of the target. -/
def RegistryService.resolve (store : Store) (link_id : String) :
    Except RegErr (Option String × RegistryRecord) :=
  match RegistryService.get store link_id with
  | .error e => .error e
  | .ok record => .ok (record.target_uri, record)

/-- The metadata response body built by `ResolverService.resolve`: the
dict with exactly the keys
`id, target, mediaType, language, created, updated, version, metadata`. -/
structure MetaSnapshot where
  id : String
  target : Option String
  mediaType : Option String
  language : Option String
  created : ℚ
  updated : ℚ
  version : Nat
  metadata : Meta
deriving DecidableEq

/-- Model of `ResolutionResult` from `resolver_service.py`, as the tagged union
the two constructor sites actually build. -/
inductive ResolutionResult where
  | redirect (uri : Option String) (permanent : Bool) (cache_ttl : Nat)
      (quality : ℚ)
  | metadataRes (data : MetaSnapshot) (cache_ttl : Nat) (etag : String)
deriving DecidableEq

/-- The ETag built by `ResolverService.resolve`:
`f'W/"{record.version}-{int(record.updated)}"'`. -/
def etagOf (record : RegistryRecord) : String :=
  "W/\"" ++ toString record.version ++ "-" ++ toString (pyInt record.updated)
    ++ "\""

/-- Model of `ResolverService.resolve`: forwards registry errors unchanged; with
`prefer_redirect` produces the redirect shape, otherwise the metadata
snapshot with the weak ETag. -/
def ResolverService.resolve (store : Store) (linkid : String)
    (prefer_redirect : Bool) : Except RegErr ResolutionResult :=
  match RegistryService.resolve store linkid with
  | .error e => .error e
  | .ok (target_uri, record) =>
    if prefer_redirect then
      .ok (.redirect target_uri false 300 1)
    else
      .ok (.metadataRes
        { id := record.id
          target := record.target_uri
          mediaType := record.media_type
          language := record.language
          created := record.created
          updated := record.updated
          version := record.version
          metadata := record.metadata }
        120 (etagOf record))

/-- A cache store: key to `(value, expires_at)`, in insertion order. -/
abbrev CacheStore (α : Type) := List (String × (α × ℚ))

/-- Model of `CacheService.get` (server tier): miss when the key is absent;
lazy-expires (removes the entry and misses) when `expires_at < now`;
otherwise a hit.  Returns the value (if any) with the store as left
behind. -/
def CacheService.get {α : Type} (store : CacheStore α) (key : String)
    (now : ℚ) : Option α × CacheStore α :=
  match dictGet store key with
  | none => (none, store)
  | some (value, expires_at) =>
    if expires_at < now then (none, dictPop store key)
    else (some value, store)

/-- Model of `CacheService.set` (server tier): stores `(value, now + ttl)`; the
Python default for `ttl` is `300`. -/
def CacheService.set {α : Type} (store : CacheStore α) (key : String)
    (value : α) (now : ℚ) (ttl : ℚ := 300) : CacheStore α :=
  dictSet store key (value, now + ttl)

/-- The client-side `TTLCache` object (`client.py`): capacity, default
TTL and the underlying store. -/
structure TTLCache (α : Type) where
  max_size : Nat := 1024
  default_ttl : ℚ := 3600
  store : CacheStore α := []
deriving DecidableEq

/-- Model of `TTLCache.get`: identical logic to the server tier's `get`. -/
def TTLCache.get {α : Type} (c : TTLCache α) (key : String) (now : ℚ) :
    Option α × TTLCache α :=
  match dictGet c.store key with
  | none => (none, c)
  | some (value, expires_at) =>
    if expires_at < now then (none, { c with store := dictPop c.store key })
    else (some value, c)

/-- Model of `TTLCache.set`: when at capacity first evicts the oldest entry
(`pop(next(iter(...)))`, i.e. the head of the insertion order), then
stores with `expires_at = now + (ttl if ttl is not None else
default_ttl)`. -/
def TTLCache.set {α : Type} (c : TTLCache α) (key : String) (value : α)
    (ttl : Option ℚ) (now : ℚ) : TTLCache α :=
  let s := if c.store.length ≥ c.max_size then c.store.tail else c.store
  { c with store := dictSet s key (value, now + ttl.getD c.default_ttl) }

/-- One transport attempt's outcome, as seen by the `try` in
`LinkIDClient._send_request`: either an HTTP response object (of any
status) or a raised `Timeout`/`RequestException`. -/
inductive Attempt (ρ ε : Type) where
  | resp (r : ρ)
  | fail (e : ε)
deriving DecidableEq

/-- What a run of `_send_request` did: the outcome (`error e` standing
for `raise NetworkError` wrapping the last transport failure), how many
attempts were made, and the `time.sleep` durations in order. -/
structure SendTrace (ρ ε : Type) where
  result : Except (Option ε) ρ
  attempts : Nat
  sleeps : List Nat

/-- The `for attempt in range(1, self.retries + 1)` loop of
`_send_request`, with the environment's transport behaviour supplied as
a function from the attempt number.  `fuel` is the number of loop
iterations left (so the sleep guard `attempt < self.retries` is
`fuel ≠ 0` after consuming the current iteration). -/
def sendLoop {ρ ε : Type} (transport : Nat → Attempt ρ ε) :
    Nat → Nat → Option ε → SendTrace ρ ε
  | _, 0, lastErr => ⟨.error lastErr, 0, []⟩
  | attempt, fuel + 1, _ =>
    match transport attempt with
    | .resp r => ⟨.ok r, 1, []⟩
    | .fail e =>
      let rest := sendLoop transport (attempt + 1) fuel (some e)
      ⟨rest.result, rest.attempts + 1,
        (if fuel ≠ 0 then [2 ^ (attempt - 1)] else []) ++ rest.sleeps⟩

/-- Model of `LinkIDClient._send_request` together with the constructor's
`self.retries = max(1, retries)`. -/
def sendRequest {ρ ε : Type} (transport : Nat → Attempt ρ ε)
    (retries : Nat) : SendTrace ρ ε :=
  sendLoop transport 1 (max 1 retries) none

/-- Prefix test on strings, by character list (kernel-computable
counterpart of `String.startsWith`). -/
def strHasPrefix (s p : String) : Bool :=
  s.data.take p.data.length == p.data

/-- Model of `LinkIDClient._looks_like_url`: `re.match(r"^https?://", value)`. -/
def looks_like_url (value : String) : Bool :=
  strHasPrefix value "http://" || strHasPrefix value "https://"

/-- The relevant keys of a raw `POST /register` JSON body.  `none`
means the key is absent; pydantic accepts the alias `targetUri` and
(via `populate_by_name`) the field name `target_uri`. -/
structure RegisterBody where
  targetUri : Option String := none
  target_uri : Option String := none
  mediaType : Option String := none
  media_type : Option String := none
  language : Option String := none
  metadata : Option Meta := none
deriving DecidableEq

/-- The validated `RegistrationRequest` model (`models.py`):
`target_uri` is a required string, the rest optional. -/
structure RegistrationRequest where
  target_uri : String
  media_type : Option String := none
  language : Option String := none
  metadata : Option Meta := none
deriving DecidableEq

/-- Pydantic validation of `RegistrationRequest`: fails (`none`, a 422
validation error, nothing stored) exactly when neither `targetUri` nor
`target_uri` supplies the required field; no other constraint is checked
on the target. -/
def parseRegistration (body : RegisterBody) : Option RegistrationRequest :=
  match body.targetUri.orElse (fun _ => body.target_uri) with
  | none => none
  | some t =>
    some { target_uri := t
           media_type := body.mediaType.orElse (fun _ => body.media_type)
           language := body.language
           metadata := body.metadata }

/-- Outcome of `POST /register` at the app layer. -/
inductive RegisterOutcome where
  | validationError
  | created (id : String)
deriving DecidableEq

/-- The `POST /register` pipeline: pydantic validation
(`RegistrationRequest`), then `main.register_linkid` builds the payload
dict with the authenticated caller as `"issuer"`, then
`ResolverService.register` picks `payload.get("issuer") or "unknown"`
and calls `RegistryService.create` with the freshly generated id. -/
def registerEndpoint (store : Store) (gen_id : String)
    (body : RegisterBody) (user_sub : String) (now : ℚ) :
    RegisterOutcome × Store :=
  match parseRegistration body with
  | none => (.validationError, store)
  | some req =>
    let payload : CreatePayload :=
      { target_uri := some req.target_uri
        media_type := req.media_type
        language := req.language
        metadata := req.metadata }
    let issuer := if user_sub ≠ "" then user_sub else "unknown"
    let (record, store') :=
      RegistryService.create store gen_id payload issuer now
    (.created record.id, store')

/-- A registry operation, for reasoning about operation sequences.  The
nondeterministic inputs (generated id, caller identity, clock) are data
of the operation. -/
inductive Op where
  | createOp (link_id : String) (payload : CreatePayload) (issuer : String)
      (now : ℚ)
  | updateOp (link_id : String) (u : Updates) (user_sub : String) (now : ℚ)
  | withdrawOp (link_id : String) (data : Option Meta) (user_sub : String)
      (now : ℚ)
  | getOp (link_id : String)
  | resolveOp (link_id : String)
deriving DecidableEq

/-- The store after one operation (reads leave it unchanged; a raised
error leaves it as the operation left it). -/
def applyOp (store : Store) : Op → Store
  | .createOp link_id payload issuer now =>
    (RegistryService.create store link_id payload issuer now).2
  | .updateOp link_id u user_sub now =>
    (RegistryService.update store link_id u user_sub now).2
  | .withdrawOp link_id data user_sub now =>
    (RegistryService.withdraw store link_id data user_sub now).2
  | .getOp _ => store
  | .resolveOp _ => store

/-- Freshness of a single operation against a store: a `createOp`'s
generated id must be absent (the `uuid4` uniqueness assumption); other
operations are unconstrained. -/
def opFresh (store : Store) : Op → Bool
  | .createOp link_id _ _ _ => (dictGet store link_id).isNone
  | _ => true

/-- Freshness of generated ids along a sequence: every `createOp`'s id
is absent from the store at the moment it runs. -/
def freshSeq (store : Store) : List Op → Bool
  | [] => true
  | op :: rest => opFresh store op && freshSeq (applyOp store op) rest

/-! ### Basic association-list lemmas -/

theorem dictGet_dictSet_self {α : Type} (m : List (String × α))
    (k : String) (v : α) : dictGet (dictSet m k v) k = some v := by
  induction m with
  | nil => simp [dictGet, dictSet]
  | cons p rest ih =>
    obtain ⟨k', v'⟩ := p
    by_cases h : k' = k
    · simp [dictGet, dictSet, h]
    · simp [dictGet, dictSet, h, ih]

theorem dictGet_dictSet_ne {α : Type} (m : List (String × α))
    (k k' : String) (v : α) (h : k' ≠ k) :
    dictGet (dictSet m k v) k' = dictGet m k' := by
  induction m with
  | nil => simp [dictGet, dictSet, Ne.symm h]
  | cons p rest ih =>
    obtain ⟨k0, v0⟩ := p
    by_cases h0 : k0 = k
    · subst h0
      simp [dictGet, dictSet, Ne.symm h]
    · by_cases h1 : k0 = k'
      · simp [dictGet, dictSet, h0, h1, h]
      · simp [dictGet, dictSet, h0, h1, ih]

theorem dictGet_append_of_none {α : Type} (m l : List (String × α))
    (k : String) (h : dictGet m k = none) :
    dictGet (m ++ l) k = dictGet l k := by
  induction m with
  | nil => simp
  | cons p rest ih =>
    obtain ⟨k0, v0⟩ := p
    by_cases h0 : k0 = k
    · simp [dictGet, h0] at h
    · simp [dictGet, h0] at h ⊢
      exact ih h

theorem dictGet_dictSetdefault {α : Type} (m : List (String × α))
    (k : String) (v : α) :
    dictGet (dictSetdefault m k v) k =
      some ((dictGet m k).getD v) := by
  unfold dictSetdefault dictContains
  cases h : dictGet m k with
  | none =>
    simp [h, dictGet_append_of_none m [(k, v)] k h, dictGet]
  | some x => simp [h]

/-! ### Structure of the update pipeline -/

/-- The four recognized-field branches of `RegistryService.update`, in
source order, threading the `changed` flag. -/
def updPipeline (record : RegistryRecord) (u : Updates) :
    RegistryRecord × Bool :=
  updMetadata (updLanguage (updMedia (updTarget (record, false) u) u) u) u

/-- The predicate the update supplies at least one recognized field: some branch of
`RegistryService.update` fires (for `metadata`, the value must be a
dict). -/
def suppliesField (u : Updates) : Bool :=
  u.target_uri.isSome || u.targetUri.isSome || u.media_type.isSome ||
    u.mediaType.isSome || u.language.isSome ||
    (match u.metadata with
     | some (some _) => true
     | _ => false)

theorem updTarget_snd (rc : RegistryRecord × Bool) (u : Updates) :
    (updTarget rc u).2 = (rc.2 || (u.target_uri.isSome || u.targetUri.isSome)) := by
  unfold updTarget
  split
  case isTrue h => simp [h]
  case isFalse h =>
    simp only [Bool.or_eq_true, not_or, Bool.not_eq_true] at h
    simp [h.1, h.2]

theorem updMedia_snd (rc : RegistryRecord × Bool) (u : Updates) :
    (updMedia rc u).2 = (rc.2 || (u.media_type.isSome || u.mediaType.isSome)) := by
  unfold updMedia
  split
  case isTrue h => simp [h]
  case isFalse h =>
    simp only [Bool.or_eq_true, not_or, Bool.not_eq_true] at h
    simp [h.1, h.2]

theorem updLanguage_snd (rc : RegistryRecord × Bool) (u : Updates) :
    (updLanguage rc u).2 = (rc.2 || u.language.isSome) := by
  unfold updLanguage
  cases h : u.language <;> simp [h]

theorem updMetadata_snd (rc : RegistryRecord × Bool) (u : Updates) :
    (updMetadata rc u).2 =
      (rc.2 || (match u.metadata with
                | some (some _) => true
                | _ => false)) := by
  unfold updMetadata
  cases h : u.metadata with
  | none => simp [h]
  | some mv => cases mv <;> simp [h]

theorem updPipeline_snd (record : RegistryRecord) (u : Updates) :
    (updPipeline record u).2 = suppliesField u := by
  unfold updPipeline suppliesField
  rw [updMetadata_snd, updLanguage_snd, updMedia_snd, updTarget_snd]
  simp [Bool.or_assoc]

theorem updTarget_fst (rc : RegistryRecord × Bool) (u : Updates) :
    (updTarget rc u).1 =
      (if u.target_uri.isSome || u.targetUri.isSome then
        { rc.1 with target_uri := pyOr u.target_uri.join u.targetUri.join }
      else rc.1) := by
  unfold updTarget
  split <;> simp_all

theorem updMedia_fst (rc : RegistryRecord × Bool) (u : Updates) :
    (updMedia rc u).1 =
      (if u.media_type.isSome || u.mediaType.isSome then
        { rc.1 with media_type := pyOr u.media_type.join u.mediaType.join }
      else rc.1) := by
  unfold updMedia
  split <;> simp_all

theorem updLanguage_fst (rc : RegistryRecord × Bool) (u : Updates) :
    (updLanguage rc u).1 =
      (match u.language with
       | some v => { rc.1 with language := v }
       | none => rc.1) := by
  unfold updLanguage
  cases u.language <;> simp

theorem updMetadata_fst (rc : RegistryRecord × Bool) (u : Updates) :
    (updMetadata rc u).1 =
      (match u.metadata with
       | some (some m) => { rc.1 with metadata := dictUpdate rc.1.metadata m }
       | _ => rc.1) := by
  unfold updMetadata
  cases h : u.metadata with
  | none => simp
  | some mv => cases mv <;> simp

theorem updTarget_pres (rc : RegistryRecord × Bool) (u : Updates) :
    (updTarget rc u).1.version = rc.1.version ∧
    (updTarget rc u).1.updated = rc.1.updated ∧
    (updTarget rc u).1.withdrawn = rc.1.withdrawn ∧
    (updTarget rc u).1.id = rc.1.id ∧
    (updTarget rc u).1.created = rc.1.created ∧
    (updTarget rc u).1.metadata = rc.1.metadata := by
  unfold updTarget
  split <;> simp

theorem updMedia_pres (rc : RegistryRecord × Bool) (u : Updates) :
    (updMedia rc u).1.version = rc.1.version ∧
    (updMedia rc u).1.updated = rc.1.updated ∧
    (updMedia rc u).1.withdrawn = rc.1.withdrawn ∧
    (updMedia rc u).1.id = rc.1.id ∧
    (updMedia rc u).1.created = rc.1.created ∧
    (updMedia rc u).1.metadata = rc.1.metadata ∧
    (updMedia rc u).1.target_uri = rc.1.target_uri := by
  unfold updMedia
  split <;> simp

theorem updLanguage_pres (rc : RegistryRecord × Bool) (u : Updates) :
    (updLanguage rc u).1.version = rc.1.version ∧
    (updLanguage rc u).1.updated = rc.1.updated ∧
    (updLanguage rc u).1.withdrawn = rc.1.withdrawn ∧
    (updLanguage rc u).1.id = rc.1.id ∧
    (updLanguage rc u).1.created = rc.1.created ∧
    (updLanguage rc u).1.metadata = rc.1.metadata ∧
    (updLanguage rc u).1.target_uri = rc.1.target_uri := by
  unfold updLanguage
  cases u.language <;> simp

theorem updMetadata_pres (rc : RegistryRecord × Bool) (u : Updates) :
    (updMetadata rc u).1.version = rc.1.version ∧
    (updMetadata rc u).1.updated = rc.1.updated ∧
    (updMetadata rc u).1.withdrawn = rc.1.withdrawn ∧
    (updMetadata rc u).1.id = rc.1.id ∧
    (updMetadata rc u).1.created = rc.1.created ∧
    (updMetadata rc u).1.target_uri = rc.1.target_uri := by
  unfold updMetadata
  cases h : u.metadata with
  | none => simp
  | some mv => cases mv <;> simp

/-- The field branches never touch `version`, `updated`, `withdrawn`,
`id` or `created`. -/
theorem updPipeline_preserves (record : RegistryRecord) (u : Updates) :
    (updPipeline record u).1.version = record.version ∧
    (updPipeline record u).1.updated = record.updated ∧
    (updPipeline record u).1.withdrawn = record.withdrawn ∧
    (updPipeline record u).1.id = record.id ∧
    (updPipeline record u).1.created = record.created := by
  unfold updPipeline
  obtain ⟨t1, t2, t3, t4, t5, t6⟩ := updTarget_pres (record, false) u
  obtain ⟨m1, m2, m3, m4, m5, m6, m7⟩ := updMedia_pres (updTarget (record, false) u) u
  obtain ⟨l1, l2, l3, l4, l5, l6, l7⟩ :=
    updLanguage_pres (updMedia (updTarget (record, false) u) u) u
  obtain ⟨d1, d2, d3, d4, d5, d6⟩ :=
    updMetadata_pres (updLanguage (updMedia (updTarget (record, false) u) u) u) u
  exact ⟨by rw [d1, l1, m1, t1], by rw [d2, l2, m2, t2], by rw [d3, l3, m3, t3],
    by rw [d4, l4, m4, t4], by rw [d5, l5, m5, t5]⟩

/-- Only the `target_uri` branch touches `target_uri`. -/
theorem updPipeline_fields (record : RegistryRecord) (u : Updates) :
    (updPipeline record u).1.target_uri =
      (if u.target_uri.isSome || u.targetUri.isSome then
        pyOr u.target_uri.join u.targetUri.join
      else record.target_uri) := by
  unfold updPipeline
  obtain ⟨m1, m2, m3, m4, m5, m6, m7⟩ := updMedia_pres (updTarget (record, false) u) u
  obtain ⟨l1, l2, l3, l4, l5, l6, l7⟩ :=
    updLanguage_pres (updMedia (updTarget (record, false) u) u) u
  obtain ⟨d1, d2, d3, d4, d5, d6⟩ :=
    updMetadata_pres (updLanguage (updMedia (updTarget (record, false) u) u) u) u
  rw [d6, l7, m7, updTarget_fst]
  split <;> simp

/-- Success characterization of `RegistryService.update`: if the record
exists and the ownership check passes, the call succeeds, stores the
pipeline output back under the id, bumps `version`/`updated` exactly
when a recognized field was supplied, and never touches the
tombstone. -/
theorem update_spec (store : Store) (link_id : String) (u : Updates)
    (user_sub : String) (now : ℚ) (record : RegistryRecord)
    (hrec : dictGet store link_id = some record)
    (hauth : issuerCheck record.metadata user_sub = false) :
    ∃ record',
      RegistryService.update store link_id u user_sub now =
        (none, dictSet store link_id record') ∧
      record'.version =
        (if suppliesField u then record.version + 1 else record.version) ∧
      record'.updated = (if suppliesField u then now else record.updated) ∧
      record'.withdrawn = record.withdrawn ∧
      record'.target_uri =
        (if u.target_uri.isSome || u.targetUri.isSome then
          pyOr u.target_uri.join u.targetUri.join
        else record.target_uri) := by
  obtain ⟨hv, hu, hw, hid, hc⟩ := updPipeline_preserves record u
  have hflag := updPipeline_snd record u
  have htgt := updPipeline_fields record u
  refine ⟨(if (updPipeline record u).2 then
      { (updPipeline record u).1 with
        version := (updPipeline record u).1.version + 1, updated := now }
    else (updPipeline record u).1), ?_, ?_, ?_, ?_, ?_⟩
  · unfold RegistryService.update RegistryService.get_any updPipeline at *
    rw [hrec]
    simp only [hauth, Bool.false_eq_true, if_false]
  · rw [hflag]
    split <;> simp_all
  · rw [hflag]
    split <;> simp_all
  · rw [hflag]
    split <;> simp_all
  · rw [hflag]
    split <;> simp_all

/-- Lemma: `update` fails `Unauthorized`, leaving the store untouched, exactly
when the ownership check fires. -/
theorem update_unauthorized (store : Store) (link_id : String)
    (u : Updates) (user_sub : String) (now : ℚ) (record : RegistryRecord)
    (hrec : dictGet store link_id = some record)
    (hauth : issuerCheck record.metadata user_sub = true) :
    RegistryService.update store link_id u user_sub now =
      (some .unauthorized, store) := by
  unfold RegistryService.update RegistryService.get_any
  rw [hrec]
  simp [hauth]

/-- Success characterization of `RegistryService.withdraw`: the record's
tombstone is unconditionally replaced by a fresh one built from the
request's `reason` and the current time; nothing else changes. -/
theorem withdraw_spec (store : Store) (link_id : String)
    (data : Option Meta) (user_sub : String) (now : ℚ)
    (record : RegistryRecord)
    (hrec : dictGet store link_id = some record)
    (hauth : issuerCheck record.metadata user_sub = false) :
    RegistryService.withdraw store link_id data user_sub now =
      (none, dictSet store link_id
        { record with
          withdrawn :=
            some { reason := dictGet ((data).getD []) "reason", at_ := now } }) := by
  unfold RegistryService.withdraw RegistryService.get_any
  rw [hrec]
  simp [hauth]

/-- Lemma: `withdraw` fails `Unauthorized`, leaving the store untouched,
exactly when the ownership check fires. -/
theorem withdraw_unauthorized (store : Store) (link_id : String)
    (data : Option Meta) (user_sub : String) (now : ℚ)
    (record : RegistryRecord)
    (hrec : dictGet store link_id = some record)
    (hauth : issuerCheck record.metadata user_sub = true) :
    RegistryService.withdraw store link_id data user_sub now =
      (some .unauthorized, store) := by
  unfold RegistryService.withdraw RegistryService.get_any
  rw [hrec]
  simp [hauth]

/-- Lemma: `get` on a withdrawn record fails `Withdrawn` with the stored
tombstone's reason and time. -/
theorem get_withdrawn (store : Store) (link_id : String)
    (record : RegistryRecord) (t : Tombstone)
    (hrec : dictGet store link_id = some record)
    (ht : record.withdrawn = some t) :
    RegistryService.get store link_id =
      .error (.withdrawnErr link_id t.reason t.at_) := by
  unfold RegistryService.get
  rw [hrec]
  simp [ht]

/-- Lemma: `resolve` on a withdrawn record: the registry error propagates. -/
theorem resolve_withdrawn (store : Store) (link_id : String)
    (record : RegistryRecord) (t : Tombstone)
    (hrec : dictGet store link_id = some record)
    (ht : record.withdrawn = some t) :
    RegistryService.resolve store link_id =
      .error (.withdrawnErr link_id t.reason t.at_) := by
  unfold RegistryService.resolve
  rw [get_withdrawn store link_id record t hrec ht]

/-- The store side of `update`: either untouched (lookup or ownership
failure) or a write-back that preserves the record's tombstone. -/
theorem update_store_cases (store : Store) (link_id : String)
    (u : Updates) (user_sub : String) (now : ℚ) :
    (RegistryService.update store link_id u user_sub now).2 = store ∨
    ∃ r r', dictGet store link_id = some r ∧ r'.withdrawn = r.withdrawn ∧
      (RegistryService.update store link_id u user_sub now).2 =
        dictSet store link_id r' := by
  cases hrec : dictGet store link_id with
  | none =>
    left
    unfold RegistryService.update RegistryService.get_any
    rw [hrec]
  | some r =>
    cases hauth : issuerCheck r.metadata user_sub with
    | true =>
      left
      rw [update_unauthorized store link_id u user_sub now r hrec hauth]
    | false =>
      right
      obtain ⟨r', heq, _, _, hw, _⟩ :=
        update_spec store link_id u user_sub now r hrec hauth
      exact ⟨r, r', rfl, hw, by rw [heq]⟩

/-- The store side of `withdraw`: either untouched or a write-back whose
record carries some tombstone. -/
theorem withdraw_store_cases (store : Store) (link_id : String)
    (data : Option Meta) (user_sub : String) (now : ℚ) :
    (RegistryService.withdraw store link_id data user_sub now).2 = store ∨
    ∃ r r', dictGet store link_id = some r ∧ (∃ t', r'.withdrawn = some t') ∧
      (RegistryService.withdraw store link_id data user_sub now).2 =
        dictSet store link_id r' := by
  cases hrec : dictGet store link_id with
  | none =>
    left
    unfold RegistryService.withdraw RegistryService.get_any
    rw [hrec]
  | some r =>
    cases hauth : issuerCheck r.metadata user_sub with
    | true =>
      left
      rw [withdraw_unauthorized store link_id data user_sub now r hrec hauth]
    | false =>
      right
      refine ⟨r, { r with withdrawn := some (Tombstone.mk (dictGet ((data).getD []) "reason") now) }, rfl, ⟨_, rfl⟩, ?_⟩
      rw [withdraw_spec store link_id data user_sub now r hrec hauth]

/-- One step of any operation preserves "the record at `link_id` exists
and is withdrawn", as long as a `createOp` never reuses a live id. -/
theorem applyOp_withdrawn_preserved (store : Store) (op : Op)
    (link_id : String) (record : RegistryRecord) (t : Tombstone)
    (hrec : dictGet store link_id = some record)
    (ht : record.withdrawn = some t)
    (hfresh : ∀ cid p i n, op = .createOp cid p i n →
      dictGet store cid = none) :
    ∃ record' t', dictGet (applyOp store op) link_id = some record' ∧
      record'.withdrawn = some t' := by
  cases op with
  | createOp cid p i n =>
    have hc : dictGet store cid = none := hfresh cid p i n rfl
    have hne : link_id ≠ cid := by
      intro hh
      rw [hh, hc] at hrec
      exact Option.noConfusion hrec
    refine ⟨record, t, ?_, ht⟩
    show dictGet (dictSet store cid _) link_id = some record
    rw [dictGet_dictSet_ne store cid link_id _ hne, hrec]
  | updateOp lid u user now =>
    rcases update_store_cases store lid u user now with hsame | ⟨r, r', hr, hw, hst⟩
    · exact ⟨record, t, by rw [applyOp, hsame, hrec], ht⟩
    · by_cases hid : link_id = lid
      · subst hid
        rw [hrec] at hr
        obtain rfl : record = r := by injection hr
        refine ⟨r', t, ?_, by rw [hw, ht]⟩
        rw [applyOp, hst, dictGet_dictSet_self]
      · refine ⟨record, t, ?_, ht⟩
        rw [applyOp, hst, dictGet_dictSet_ne store lid link_id r' hid, hrec]
  | withdrawOp lid data user now =>
    rcases withdraw_store_cases store lid data user now with
      hsame | ⟨r, r', hr, ⟨t', hw⟩, hst⟩
    · exact ⟨record, t, by rw [applyOp, hsame, hrec], ht⟩
    · by_cases hid : link_id = lid
      · subst hid
        refine ⟨r', t', ?_, hw⟩
        rw [applyOp, hst, dictGet_dictSet_self]
      · refine ⟨record, t, ?_, ht⟩
        rw [applyOp, hst, dictGet_dictSet_ne store lid link_id r' hid, hrec]
  | getOp lid => exact ⟨record, t, hrec, ht⟩
  | resolveOp lid => exact ⟨record, t, hrec, ht⟩

/-- Folding any fresh-id operation sequence keeps a withdrawn record
withdrawn. -/
theorem foldOps_withdrawn_preserved (ops : List Op) :
    ∀ (store : Store) (link_id : String) (record : RegistryRecord)
      (t : Tombstone), dictGet store link_id = some record →
      record.withdrawn = some t → freshSeq store ops = true →
      ∃ record' t', dictGet (List.foldl applyOp store ops) link_id =
        some record' ∧ record'.withdrawn = some t' := by
  induction ops with
  | nil =>
    intro store link_id record t hrec ht _
    exact ⟨record, t, hrec, ht⟩
  | cons op rest ih =>
    intro store link_id record t hrec ht hfresh
    rw [freshSeq, Bool.and_eq_true] at hfresh
    obtain ⟨hop, hrest⟩ := hfresh
    have hfresh1 : ∀ cid p i n, op = .createOp cid p i n →
        dictGet store cid = none := by
      intro cid p i n hh
      subst hh
      simpa [opFresh, Option.isNone_iff_eq_none] using hop
    obtain ⟨record', t', hrec', ht'⟩ :=
      applyOp_withdrawn_preserved store op link_id record t hrec ht hfresh1
    exact ih (applyOp store op) link_id record' t' hrec' ht' hrest

theorem rangePow_cons (a n : Nat) (ha : 1 ≤ a) :
    (2 ^ (a - 1) :: (List.range n).map (fun j => 2 ^ (a + j))) =
      (List.range (n + 1)).map (fun j => 2 ^ (a - 1 + j)) := by
  rw [List.range_succ_eq_map, List.map_cons, List.map_map]
  refine congrArg₂ _ (by simp) ?_
  refine List.map_congr_left ?_
  intro j _
  show 2 ^ (a + j) = 2 ^ (a - 1 + (j + 1))
  congr 1
  omega

theorem sendLoop_shape {ρ ε : Type} (transport : Nat → Attempt ρ ε) :
    ∀ (fuel a : Nat) (le : Option ε), 1 ≤ a →
      (sendLoop transport a fuel le).attempts ≤ fuel ∧
      (fuel ≠ 0 → 1 ≤ (sendLoop transport a fuel le).attempts) ∧
      (sendLoop transport a fuel le).sleeps =
        (List.range ((sendLoop transport a fuel le).attempts - 1)).map
          (fun j => 2 ^ (a - 1 + j)) := by
  intro fuel
  induction fuel with
  | zero =>
    intro a le ha
    refine ⟨Nat.le_refl _, fun h => absurd rfl h, ?_⟩
    simp [sendLoop]
  | succ f ih =>
    intro a le ha
    rw [sendLoop]
    cases htr : transport a with
    | resp r => simp
    | fail e =>
      obtain ⟨ih1, ih2, ih3⟩ := ih (a + 1) (some e) (by omega)
      refine ⟨by simpa using Nat.add_le_add_right ih1 1, fun _ => by simp, ?_⟩
      simp only
      by_cases hf : f = 0
      · subst hf
        simp [sendLoop]
      · rw [if_pos hf]
        have h1 : 1 ≤ (sendLoop transport (a + 1) f (some e)).attempts := ih2 hf
        rw [ih3]
        simp only [List.singleton_append]
        have : a + 1 - 1 = a := by omega
        rw [this]
        have h2 := rangePow_cons a ((sendLoop transport (a + 1) f (some e)).attempts - 1) ha
        rw [h2]
        congr 2
        omega

theorem sendLoop_succ_resp {ρ ε : Type} (transport : Nat → Attempt ρ ε)
    (a f : Nat) (le : Option ε) (r : ρ) (h : transport a = .resp r) :
    sendLoop transport a (f + 1) le = ⟨.ok r, 1, []⟩ := by
  rw [sendLoop, h]

theorem sendLoop_succ_fail {ρ ε : Type} (transport : Nat → Attempt ρ ε)
    (a f : Nat) (le : Option ε) (e : ε) (h : transport a = .fail e) :
    sendLoop transport a (f + 1) le =
      ⟨(sendLoop transport (a + 1) f (some e)).result,
        (sendLoop transport (a + 1) f (some e)).attempts + 1,
        (if f ≠ 0 then [2 ^ (a - 1)] else []) ++
          (sendLoop transport (a + 1) f (some e)).sleeps⟩ := by
  rw [sendLoop, h]

theorem sendLoop_first_resp {ρ ε : Type} (transport : Nat → Attempt ρ ε) :
    ∀ (i fuel a : Nat) (le : Option ε) (r : ρ), 1 ≤ a → i < fuel →
      transport (a + i) = .resp r →
      (∀ j, j < i → ∃ e, transport (a + j) = .fail e) →
      sendLoop transport a fuel le =
        ⟨.ok r, i + 1, (List.range i).map (fun j => 2 ^ (a - 1 + j))⟩ := by
  intro i
  induction i with
  | zero =>
    intro fuel a le r ha hif htr _
    obtain ⟨f, rfl⟩ : ∃ f, fuel = f + 1 := ⟨fuel - 1, by omega⟩
    rw [sendLoop_succ_resp transport a f le r htr]
    simp
  | succ i ih =>
    intro fuel a le r ha hif htr hfail
    obtain ⟨f, rfl⟩ : ∃ f, fuel = f + 1 := ⟨fuel - 1, by omega⟩
    obtain ⟨e0, he0⟩ := hfail 0 (by omega)
    rw [sendLoop_succ_fail transport a f le e0 he0]
    have hrest := ih f (a + 1) (some e0) r (by omega) (by omega)
      (by rw [show a + 1 + i = a + (i + 1) from by omega]; exact htr)
      (fun j hj => by
        obtain ⟨e, he⟩ := hfail (j + 1) (by omega)
        exact ⟨e, by rw [show a + 1 + j = a + (j + 1) from by omega]; exact he⟩)
    rw [hrest]
    have hf0 : f ≠ 0 := by omega
    simp only [hf0, if_pos, List.singleton_append, ne_eq, not_false_iff]
    have hsub : a + 1 - 1 = a := by omega
    rw [hsub, rangePow_cons a i ha]

theorem sendLoop_all_fail {ρ ε : Type} (transport : Nat → Attempt ρ ε) :
    ∀ (fuel a : Nat) (le : Option ε), 1 ≤ a → 1 ≤ fuel →
      (∀ j, j < fuel → ∃ e, transport (a + j) = .fail e) →
      ∃ eL, transport (a + (fuel - 1)) = .fail eL ∧
        sendLoop transport a fuel le =
          ⟨.error (some eL), fuel,
            (List.range (fuel - 1)).map (fun j => 2 ^ (a - 1 + j))⟩ := by
  intro fuel
  induction fuel with
  | zero => intro a le ha h0; omega
  | succ f ih =>
    intro a le ha _ hfail
    obtain ⟨e0, he0⟩ := hfail 0 (by omega)
    rw [show a + 0 = a from rfl] at he0
    by_cases hf : f = 0
    · subst hf
      refine ⟨e0, by simpa using he0, ?_⟩
      rw [sendLoop_succ_fail transport a 0 le e0 he0]
      simp [sendLoop]
    · obtain ⟨eL, heL, hrest⟩ := ih (a + 1) (some e0) (by omega) (by omega)
        (fun j hj => by
          obtain ⟨e, he⟩ := hfail (j + 1) (by omega)
          exact ⟨e, by rw [show a + 1 + j = a + (j + 1) from by omega]; exact he⟩)
      refine ⟨eL, ?_, ?_⟩
      · rw [show a + (f + 1 - 1) = a + 1 + (f - 1) from by omega]
        exact heL
      · rw [sendLoop_succ_fail transport a f le e0 he0, hrest]
        have hsub : a + 1 - 1 = a := by omega
        simp only [hf, if_pos, List.singleton_append, ne_eq, not_false_iff]
        rw [hsub, rangePow_cons a (f - 1) ha]
        have hn : f - 1 + 1 = f := by omega
        rw [hn, show f + 1 - 1 = f from by omega]

/-- Python `int()` agrees with `floor` on the nonnegative rationals
(timestamps are nonnegative). -/
theorem pyInt_eq_floor (q : ℚ) (h : 0 ≤ q) : pyInt q = ⌊q⌋ := by
  rw [Rat.floor_def, pyInt,
    Int.tdiv_eq_ediv (Rat.num_nonneg.mpr h)
      (Int.le_of_lt (Int.natCast_pos.mpr q.pos))]

/-- Lemma: `RegistryService.resolve` on an active record returns its target and
the record. -/
theorem resolve_active (store : Store) (linkid : String)
    (record : RegistryRecord) (hrec : dictGet store linkid = some record)
    (hact : record.withdrawn = none) :
    RegistryService.resolve store linkid =
      .ok (record.target_uri, record) := by
  unfold RegistryService.resolve RegistryService.get
  rw [hrec]
  simp [hact]

/-! ### Shared concrete fixtures for witnesses and counterexamples -/

/-- A concrete active record owned by `alice`. -/
def exRecord : RegistryRecord :=
  { id := "ID", target_uri := some "https://a", media_type := none,
    language := none, metadata := [("issuer", "alice")], created := 0,
    updated := 0, version := 1, withdrawn := none }

/-- A store holding `exRecord`. -/
def exStore : Store := [("ID", exRecord)]

/-- The record `exRecord` after a withdrawal with reason `gone` at time 1. -/
def exWithdrawn : RegistryRecord :=
  { exRecord with withdrawn := some { reason := some "gone", at_ := 1 } }

/-- A store holding the withdrawn record. -/
def exStoreW : Store := [("ID", exWithdrawn)]

/-! ### The claims -/

/-- C1, counterexample: the claim says an update whose supplied fields
all equal the record's current values leaves `version` and `updated`
unchanged.  On the code it is false: supplying `target_uri` with the
record's current value (`https://a`) still increments `version` from 1
to 2 and moves `updated` to the call time, because `update` keys the
`changed` flag on key presence, not on value change. -/
theorem C1_noop_update_bumps_version :
    exRecord.target_uri = some "https://a" ∧
    RegistryService.update exStore "ID"
        { target_uri := some (some "https://a") } "alice" 7 =
      (none, [("ID", { exRecord with version := 2, updated := 7 })]) := by
  decide

/-- C1, amended: `Registry.update` bumps `version` (by exactly 1) and
`updated` iff at least one recognized field key is supplied in the
updates dict, regardless of whether the supplied values differ from the
record's current values. -/
theorem C1_amended_update_bumps_iff_field_supplied (store : Store)
    (link_id : String) (u : Updates) (user_sub : String) (now : ℚ)
    (record : RegistryRecord)
    (hrec : dictGet store link_id = some record)
    (hauth : issuerCheck record.metadata user_sub = false) :
    ∃ record',
      RegistryService.update store link_id u user_sub now =
        (none, dictSet store link_id record') ∧
      record'.version =
        (if suppliesField u then record.version + 1 else record.version) ∧
      record'.updated = (if suppliesField u then now else record.updated) := by
  obtain ⟨record', heq, hv, hu, _, _⟩ :=
    update_spec store link_id u user_sub now record hrec hauth
  exact ⟨record', heq, hv, hu⟩

/-- C1, witness for the amended theorem at a concrete input. -/
theorem C1_amended_witness :
    ∃ record',
      RegistryService.update exStore "ID"
          { target_uri := some (some "https://b") } "alice" 7 =
        (none, dictSet exStore "ID" record') ∧
      record'.version =
        (if suppliesField { target_uri := some (some "https://b") } then
          exRecord.version + 1
        else exRecord.version) ∧
      record'.updated =
        (if suppliesField { target_uri := some (some "https://b") } then 7
        else exRecord.updated) :=
  C1_amended_update_bumps_iff_field_supplied exStore "ID"
    { target_uri := some (some "https://b") } "alice" 7 exRecord
    (by decide) (by decide)

/-- C2: once `withdraw(id)` succeeds the record is terminal: the store
now holds a tombstoned record, every subsequent `get` or `resolve` on
the id fails `Withdrawn` carrying the stored tombstone's reason (these
are pure reads, so any number of repetitions behaves identically), and
no sequence of operations whose created ids are fresh ever removes the
tombstone. -/
theorem C2_withdrawn_is_terminal (store : Store) (link_id : String)
    (data : Option Meta) (user_sub : String) (now : ℚ)
    (record : RegistryRecord)
    (hrec : dictGet store link_id = some record)
    (hauth : issuerCheck record.metadata user_sub = false) :
    ∃ store' t,
      RegistryService.withdraw store link_id data user_sub now =
        (none, store') ∧
      dictGet store' link_id = some { record with withdrawn := some t } ∧
      RegistryService.get store' link_id =
        .error (.withdrawnErr link_id t.reason t.at_) ∧
      RegistryService.resolve store' link_id =
        .error (.withdrawnErr link_id t.reason t.at_) ∧
      ∀ ops : List Op, freshSeq store' ops = true →
        ∃ record' t',
          dictGet (List.foldl applyOp store' ops) link_id = some record' ∧
          record'.withdrawn = some t' := by
  have hw := withdraw_spec store link_id data user_sub now record hrec hauth
  set t : Tombstone :=
    { reason := dictGet ((data).getD []) "reason", at_ := now } with ht
  set recw : RegistryRecord := { record with withdrawn := some t } with hrw
  refine ⟨dictSet store link_id recw, t, hw, dictGet_dictSet_self store link_id recw, ?_, ?_, ?_⟩
  · exact get_withdrawn _ link_id recw t (dictGet_dictSet_self _ _ _) rfl
  · exact resolve_withdrawn _ link_id recw t (dictGet_dictSet_self _ _ _) rfl
  · intro ops hfresh
    exact foldOps_withdrawn_preserved ops _ link_id recw t
      (dictGet_dictSet_self _ _ _) rfl hfresh

/-- C2, witness: a concrete withdraw followed by a concrete fresh
operation sequence (an authorized update, a re-withdraw, a fresh create
and a read). -/
theorem C2_witness :
    ∃ store' t,
      RegistryService.withdraw exStore "ID" (some [("reason", "gone")])
          "alice" 1 = (none, store') ∧
      dictGet store' "ID" = some { exRecord with withdrawn := some t } ∧
      RegistryService.get store' "ID" =
        .error (.withdrawnErr "ID" t.reason t.at_) ∧
      RegistryService.resolve store' "ID" =
        .error (.withdrawnErr "ID" t.reason t.at_) ∧
      ∀ ops : List Op, freshSeq store' ops = true →
        ∃ record' t',
          dictGet (List.foldl applyOp store' ops) "ID" = some record' ∧
          record'.withdrawn = some t' :=
  C2_withdrawn_is_terminal exStore "ID" (some [("reason", "gone")])
    "alice" 1 exRecord (by decide) (by decide)

/-- C3, counterexample: the claim says the stored record's metadata
carries an `issuer` entry equal to the creating identity for every
payload, including payloads whose metadata already has an `issuer` key.
On the code it is false: `create` uses `setdefault`, so a payload
supplying `metadata = {"issuer": "alice"}` keeps `alice` even though the
authenticated creator is `bob`. -/
theorem C3_payload_issuer_not_overwritten :
    (RegistryService.create [] "X"
        { metadata := some [("issuer", "alice")] } "bob" 0).1.metadata =
      [("issuer", "alice")] ∧
    dictGet (RegistryService.create [] "X"
        { metadata := some [("issuer", "alice")] } "bob" 0).1.metadata
      "issuer" ≠ some "bob" := by
  decide

/-- C3, amended: after `create`, the stored metadata's `issuer` entry is
the payload's own `issuer` entry when the payload metadata already has
one, and the creating identity otherwise (`setdefault`); and the issuer
entry is the sole ownership anchor: the mutation-authorization check
depends on the metadata only through its `issuer` entry. -/
theorem C3_amended_issuer_setdefault_and_sole_anchor (store : Store)
    (link_id : String) (payload : CreatePayload) (issuer : String)
    (now : ℚ) :
    dictGet (RegistryService.create store link_id payload issuer
        now).1.metadata "issuer" =
      some ((dictGet ((payload.metadata).getD []) "issuer").getD issuer) ∧
    ∀ m1 m2 : Meta, ∀ user_sub : String,
      dictGet m1 "issuer" = dictGet m2 "issuer" →
      issuerCheck m1 user_sub = issuerCheck m2 user_sub := by
  constructor
  · show dictGet (dictSetdefault ((payload.metadata).getD []) "issuer"
        issuer) "issuer" = _
    exact dictGet_dictSetdefault _ "issuer" issuer
  · intro m1 m2 user_sub h
    unfold issuerCheck
    rw [h]

/-- C3, witness for the amended theorem at a concrete input. -/
theorem C3_amended_witness :
    dictGet (RegistryService.create [] "X"
        { metadata := some [("issuer", "alice")] } "bob" 0).1.metadata
      "issuer" =
      some ((dictGet ((some [("issuer", "alice")] : Option Meta).getD [])
        "issuer").getD "bob") ∧
    ∀ m1 m2 : Meta, ∀ user_sub : String,
      dictGet m1 "issuer" = dictGet m2 "issuer" →
      issuerCheck m1 user_sub = issuerCheck m2 user_sub :=
  C3_amended_issuer_setdefault_and_sole_anchor [] "X"
    { metadata := some [("issuer", "alice")] } "bob" 0

/-- C4, counterexample: the claim says `update`/`withdraw` by an
identity different from the stored `metadata.issuer` always raises
`Unauthorized`.  On the code it is false when the stored issuer is the
empty string (a falsy value): `mallory` differs from the stored issuer
`""`, yet the update is applied (version bumped, target repointed) and
the withdraw succeeds. -/
theorem C4_empty_issuer_bypasses_auth :
    dictGet [("issuer", "")] "issuer" = some "" ∧
    ("" : String) ≠ "mallory" ∧
    RegistryService.update [("ID", { exRecord with metadata := [("issuer", "")] })]
        "ID" { target_uri := some (some "https://new") } "mallory" 7 =
      (none, [("ID", { exRecord with
        metadata := [("issuer", "")]
        target_uri := some "https://new"
        version := 2
        updated := 7 })]) ∧
    RegistryService.withdraw [("ID", { exRecord with metadata := [("issuer", "")] })]
        "ID" (some [("reason", "r")]) "mallory" 9 =
      (none, [("ID", { exRecord with
        metadata := [("issuer", "")]
        withdrawn := some { reason := some "r", at_ := 9 } })]) := by
  decide

/-- C4, amended: whenever the stored `metadata.issuer` entry is present,
non-empty, and differs from the caller, both `update` and `withdraw`
fail `Unauthorized` and return the store exactly as it was (the
ownership check precedes every mutation, so there is no partial
mutation). -/
theorem C4_amended_unauthorized_when_nonempty_issuer_differs
    (store : Store) (link_id : String) (u : Updates) (data : Option Meta)
    (user_sub : String) (nowU nowW : ℚ) (record : RegistryRecord)
    (s : String) (hrec : dictGet store link_id = some record)
    (hiss : dictGet record.metadata "issuer" = some s) (hne : s ≠ "")
    (hdiff : s ≠ user_sub) :
    RegistryService.update store link_id u user_sub nowU =
      (some .unauthorized, store) ∧
    RegistryService.withdraw store link_id data user_sub nowW =
      (some .unauthorized, store) := by
  have hauth : issuerCheck record.metadata user_sub = true := by
    unfold issuerCheck
    rw [hiss]
    simp [hne, hdiff]
  exact ⟨update_unauthorized store link_id u user_sub nowU record hrec hauth,
    withdraw_unauthorized store link_id data user_sub nowW record hrec hauth⟩

/-- C4, witness for the amended theorem at a concrete input. -/
theorem C4_amended_witness :
    RegistryService.update exStore "ID"
        { target_uri := some (some "https://new") } "mallory" 7 =
      (some .unauthorized, exStore) ∧
    RegistryService.withdraw exStore "ID" (some [("reason", "r")])
        "mallory" 9 = (some .unauthorized, exStore) :=
  C4_amended_unauthorized_when_nonempty_issuer_differs exStore "ID"
    { target_uri := some (some "https://new") } (some [("reason", "r")])
    "mallory" 7 9 exRecord "alice" (by decide) (by decide) (by decide)
    (by decide)

/-- C5, counterexample: the claim says the tombstone is immutable once
created, even under a repeated withdraw.  On the code it is false: a
second authorized withdraw replaces the stored tombstone `(reason "a",
at 1)` by a fresh one `(reason "b", at 2)`. -/
theorem C5_rewithdraw_replaces_tombstone :
    (RegistryService.withdraw
        [("ID", { exRecord with withdrawn := some { reason := some "a", at_ := 1 } })]
        "ID" (some [("reason", "b")]) "alice" 2).2 =
      [("ID", { exRecord with withdrawn := some { reason := some "b", at_ := 2 } })] ∧
    (some { reason := some "b", at_ := 2 } : Option Tombstone) ≠
      some { reason := some "a", at_ := 1 } := by
  decide

/-- C5, amended: the record's tombstone is changed by no operation other
than `withdraw` — `update` (which bypasses withdrawal state) carries the
tombstone over unchanged — but an authorized repeated `withdraw`
replaces it with a fresh tombstone built from the new call's reason and
time. -/
theorem C5_amended_tombstone_changed_only_by_withdraw (store : Store)
    (link_id : String) (u : Updates) (data : Option Meta)
    (user_sub : String) (nowU nowW : ℚ) (record : RegistryRecord)
    (hrec : dictGet store link_id = some record)
    (hauth : issuerCheck record.metadata user_sub = false) :
    (∃ record',
      RegistryService.update store link_id u user_sub nowU =
        (none, dictSet store link_id record') ∧
      record'.withdrawn = record.withdrawn) ∧
    RegistryService.withdraw store link_id data user_sub nowW =
      (none, dictSet store link_id
        { record with
          withdrawn :=
            some (Tombstone.mk (dictGet ((data).getD []) "reason") nowW) }) := by
  constructor
  · obtain ⟨record', heq, _, _, hw, _⟩ :=
      update_spec store link_id u user_sub nowU record hrec hauth
    exact ⟨record', heq, hw⟩
  · exact withdraw_spec store link_id data user_sub nowW record hrec hauth

/-- C5, witness for the amended theorem at a concrete input: the record
is already withdrawn, the update keeps the old tombstone, the repeated
withdraw installs the new one. -/
theorem C5_amended_witness :
    (∃ record',
      RegistryService.update exStoreW "ID"
          { language := some (some "en") } "alice" 7 =
        (none, dictSet exStoreW "ID" record') ∧
      record'.withdrawn = exWithdrawn.withdrawn) ∧
    RegistryService.withdraw exStoreW "ID" (some [("reason", "again")])
        "alice" 9 =
      (none, dictSet exStoreW "ID"
        { exWithdrawn with
          withdrawn :=
            some { reason := dictGet ((some [("reason", "again")] :
              Option Meta).getD []) "reason", at_ := 9 } }) :=
  C5_amended_tombstone_changed_only_by_withdraw exStoreW "ID"
    { language := some (some "en") } (some [("reason", "again")]) "alice"
    7 9 exWithdrawn (by decide) (by decide)

/-- C6, counterexample: the claim says registration rejects a
`targetUri` that is not an absolute URI.  On the code it is false: the
server-side model only requires the field to be present — the relative
string `relative/path` (which fails the SDK's own absolute-URL test) is
accepted and stored, with `version = 1`. -/
theorem C6_relative_target_accepted :
    looks_like_url "relative/path" = false ∧
    registerEndpoint [] "GID" { targetUri := some "relative/path" }
        "alice" 3 =
      (.created "GID",
        [("GID", { id := "GID", target_uri := some "relative/path",
                   media_type := none, language := none,
                   metadata := [("issuer", "alice")], created := 3,
                   updated := 3, version := 1, withdrawn := none })]) := by
  decide

/-- C6, amended: `POST /register` rejects with a validation error,
storing nothing, exactly when the required `targetUri` field (under
either accepted key) is missing; when a target string is supplied —
absolute or not, the resolver does not check — the record is stored
with `version = 1` and no tombstone. -/
theorem C6_amended_register_validation (store : Store) (gid : String)
    (body : RegisterBody) (user_sub : String) (now : ℚ) :
    (body.targetUri = none → body.target_uri = none →
      registerEndpoint store gid body user_sub now =
        (.validationError, store)) ∧
    (∀ t, body.targetUri.orElse (fun _ => body.target_uri) = some t →
      ∃ record,
        registerEndpoint store gid body user_sub now =
          (.created gid, dictSet store gid record) ∧
        record.version = 1 ∧ record.withdrawn = none) := by
  constructor
  · intro h1 h2
    unfold registerEndpoint parseRegistration
    rw [h1, h2]
    rfl
  · intro t ht
    unfold registerEndpoint parseRegistration
    rw [ht]
    exact ⟨_, rfl, rfl, rfl⟩

/-- C6, witness for the amended theorem: a missing target is rejected,
and a supplied (relative) target is stored with version 1. -/
theorem C6_amended_witness :
    (registerEndpoint exStore "GID"
        { media_type := some "text/html" } "alice" 3 =
      (.validationError, exStore)) ∧
    ∃ record,
      registerEndpoint exStore "GID2" { target_uri := some "x/y" }
          "alice" 3 =
        (.created "GID2", dictSet exStore "GID2" record) ∧
      record.version = 1 ∧ record.withdrawn = none :=
  ⟨(C6_amended_register_validation exStore "GID"
      { media_type := some "text/html" } "alice" 3).1 rfl rfl,
    (C6_amended_register_validation exStore "GID2"
      { target_uri := some "x/y" } "alice" 3).2 "x/y" rfl⟩

/-- C7, counterexample: the claim says the metadata response's `etag`
equals `"{version}-{floor(updated)}"`.  On the code it is false: the
resolver wraps the validator in HTTP weak-validator syntax, producing
`W/"1-5"` (for version 1, updated 5.5), which is not the bare string
`1-5`. -/
theorem C7_etag_has_weak_validator_wrapper :
    ResolverService.resolve
        [("ID", { exRecord with updated := mkRat 11 2 })] "ID" false =
      .ok (.metadataRes
        { id := "ID", target := some "https://a", mediaType := none,
          language := none, created := 0, updated := mkRat 11 2,
          version := 1, metadata := [("issuer", "alice")] }
        120 "W/\"1-5\"") ∧
    ("W/\"1-5\"" : String) ≠ "1-5" := by
  decide

/-- C7, amended: with `preferRedirect` true the resolver returns
`Redirect` with the record's target, `permanent = false`,
`cacheTtl = 300` and `quality = 1`; with it false, `Metadata` with
exactly the eight public fields, `cacheTtl = 120`, and the weak
validator `etag = W/"{version}-{int(updated)}"`, where `int` agrees
with `floor` on (nonnegative) timestamps. -/
theorem C7_amended_resolver_shapes (store : Store) (linkid : String)
    (record : RegistryRecord)
    (hrec : dictGet store linkid = some record)
    (hact : record.withdrawn = none) :
    ResolverService.resolve store linkid true =
      .ok (.redirect record.target_uri false 300 1) ∧
    ResolverService.resolve store linkid false =
      .ok (.metadataRes
        { id := record.id, target := record.target_uri,
          mediaType := record.media_type, language := record.language,
          created := record.created, updated := record.updated,
          version := record.version, metadata := record.metadata }
        120 (etagOf record)) ∧
    etagOf record =
      "W/\"" ++ toString record.version ++ "-" ++
        toString (pyInt record.updated) ++ "\"" ∧
    (0 ≤ record.updated → pyInt record.updated = ⌊record.updated⌋) := by
  have hres := resolve_active store linkid record hrec hact
  refine ⟨?_, ?_, rfl, pyInt_eq_floor record.updated⟩
  · unfold ResolverService.resolve
    rw [hres]
    rfl
  · unfold ResolverService.resolve
    rw [hres]
    rfl

/-- C7, witness for the amended theorem at a concrete input. -/
theorem C7_amended_witness :
    ResolverService.resolve [("ID", { exRecord with updated := mkRat 11 2 })]
        "ID" true =
      .ok (.redirect (some "https://a") false 300 1) ∧
    ResolverService.resolve [("ID", { exRecord with updated := mkRat 11 2 })]
        "ID" false =
      .ok (.metadataRes
        { id := "ID", target := some "https://a", mediaType := none,
          language := none, created := 0, updated := mkRat 11 2,
          version := 1, metadata := [("issuer", "alice")] }
        120 (etagOf { exRecord with updated := mkRat 11 2 })) ∧
    etagOf { exRecord with updated := mkRat 11 2 } =
      "W/\"" ++ toString (1 : Nat) ++ "-" ++
        toString (pyInt (mkRat 11 2)) ++ "\"" ∧
    (0 ≤ mkRat 11 2 → pyInt (mkRat 11 2) = ⌊mkRat 11 2⌋) :=
  C7_amended_resolver_shapes
    [("ID", { exRecord with updated := mkRat 11 2 })] "ID"
    { exRecord with updated := mkRat 11 2 } (by decide) (by decide)

/-- C8: the client transport loop makes at most `max(1, retries)` and at
least one attempt; the sleeps between consecutive attempts are exactly
`2^(attempt-1)`; an attempt that yields an HTTP response (after only
transport failures) ends the loop immediately with that response, never
retrying it; and when every attempt fails at the transport level the
loop raises `NetworkError` wrapping the last transport failure. -/
theorem C8_transport_retry_contract {ρ ε : Type}
    (transport : Nat → Attempt ρ ε) (retries : Nat) :
    (sendRequest transport retries).attempts ≤ max 1 retries ∧
    1 ≤ (sendRequest transport retries).attempts ∧
    (sendRequest transport retries).sleeps =
      (List.range ((sendRequest transport retries).attempts - 1)).map
        (fun j => 2 ^ j) ∧
    (∀ (k : Nat) (r : ρ), 1 ≤ k → k ≤ max 1 retries →
      transport k = .resp r →
      (∀ j, 1 ≤ j → j < k → ∃ e, transport j = .fail e) →
      sendRequest transport retries =
        ⟨.ok r, k, (List.range (k - 1)).map (fun j => 2 ^ j)⟩) ∧
    ((∀ j, 1 ≤ j → j ≤ max 1 retries → ∃ e, transport j = .fail e) →
      ∃ eL, transport (max 1 retries) = .fail eL ∧
        sendRequest transport retries =
          ⟨.error (some eL), max 1 retries,
            (List.range (max 1 retries - 1)).map (fun j => 2 ^ j)⟩) := by
  have hmax : 1 ≤ max 1 retries := le_max_left 1 retries
  obtain ⟨h1, h2, h3⟩ :=
    sendLoop_shape transport (max 1 retries) 1 none (le_refl 1)
  refine ⟨h1, h2 (by omega), ?_, ?_, ?_⟩
  · rw [show sendRequest transport retries =
      sendLoop transport 1 (max 1 retries) none from rfl, h3]
    simp
  · intro k r hk1 hk2 htr hfail
    have h := sendLoop_first_resp transport (k - 1) (max 1 retries) 1 none
      r (le_refl 1) (by omega)
      (by rw [show 1 + (k - 1) = k from by omega]; exact htr)
      (fun j hj => by
        obtain ⟨e, he⟩ := hfail (j + 1) (by omega) (by omega)
        exact ⟨e, by rw [show 1 + j = j + 1 from by omega]; exact he⟩)
    rw [show sendRequest transport retries =
      sendLoop transport 1 (max 1 retries) none from rfl, h]
    have hk : k - 1 + 1 = k := by omega
    rw [hk]
    simp
  · intro hfail
    obtain ⟨eL, heL, h⟩ := sendLoop_all_fail transport (max 1 retries) 1
      none (le_refl 1) hmax
      (fun j hj => by
        obtain ⟨e, he⟩ := hfail (j + 1) (by omega) (by omega)
        exact ⟨e, by rw [show 1 + j = j + 1 from by omega]; exact he⟩)
    refine ⟨eL, ?_, ?_⟩
    · rw [show max 1 retries = 1 + (max 1 retries - 1) from by omega]
      exact heL
    · rw [show sendRequest transport retries =
        sendLoop transport 1 (max 1 retries) none from rfl, h]
      simp

/-- A concrete transport: attempts 1 and 2 raise transport failures,
attempt 3 and later return an HTTP response. -/
def exTransport : Nat → Attempt Nat Nat :=
  fun i => if 3 ≤ i then .resp 9 else .fail i

/-- C8, witness: with `retries = 3` and two transport failures followed
by a response, the client returns the response on attempt 3 after
sleeping 1 and 2 time units. -/
theorem C8_witness :
    sendRequest exTransport 3 =
      ⟨.ok 9, 3, (List.range (3 - 1)).map (fun j => 2 ^ j)⟩ :=
  (C8_transport_retry_contract exTransport 3).2.2.2.1 3 9 (by omega)
    (by omega) (by decide)
    (fun j h1 h2 => ⟨j, by
      have hj : j = 1 ∨ j = 2 := by omega
      rcases hj with hj | hj <;> subst hj <;> decide⟩)

/-- C9, counterexample: the claim says a `get` performed exactly at the
expiry instant (`now >= expiresAt` with equality) is a miss.  On the
code it is false for both tiers: the guard is `expires_at < now`, so at
`now = expiresAt = 10` both caches return a hit and keep the entry. -/
theorem C9_get_at_expiry_instant_is_hit :
    CacheService.get [("k", ("v", (10 : ℚ)))] "k" 10 =
      (some "v", [("k", ("v", (10 : ℚ)))]) ∧
    TTLCache.get
        (TTLCache.mk 1024 3600 [("k", ("v", (10 : ℚ)))] : TTLCache String)
        "k" 10 =
      (some "v", TTLCache.mk 1024 3600 [("k", ("v", (10 : ℚ)))]) := by
  decide

/-- C9, amended: in both cache tiers, `get(key)` is a miss (and removes
the entry) exactly when `now > expiresAt` — at `now = expiresAt` the
entry is still served — and `set(key, value, ttl)` stores the entry with
`expiresAt = now + ttl`. -/
theorem C9_amended_cache_expiry {α : Type} (store : CacheStore α)
    (c : TTLCache α) (key : String) (v : α) (exp now ttl : ℚ) :
    (dictGet store key = some (v, exp) → exp < now →
      CacheService.get store key now = (none, dictPop store key)) ∧
    (dictGet store key = some (v, exp) → now ≤ exp →
      CacheService.get store key now = (some v, store)) ∧
    (dictGet c.store key = some (v, exp) → exp < now →
      TTLCache.get c key now =
        (none, { c with store := dictPop c.store key })) ∧
    (dictGet c.store key = some (v, exp) → now ≤ exp →
      TTLCache.get c key now = (some v, c)) ∧
    dictGet (CacheService.set store key v now ttl) key =
      some (v, now + ttl) ∧
    dictGet (TTLCache.set c key v (some ttl) now).store key =
      some (v, now + ttl) := by
  refine ⟨?_, ?_, ?_, ?_, ?_, ?_⟩
  · intro h hlt
    unfold CacheService.get
    rw [h]
    simp [hlt]
  · intro h hle
    unfold CacheService.get
    rw [h]
    simp [not_lt.mpr hle]
  · intro h hlt
    unfold TTLCache.get
    rw [h]
    simp [hlt]
  · intro h hle
    unfold TTLCache.get
    rw [h]
    simp [not_lt.mpr hle]
  · unfold CacheService.set
    exact dictGet_dictSet_self store key (v, now + ttl)
  · unfold TTLCache.set
    dsimp only
    exact dictGet_dictSet_self _ key (v, now + ttl)

/-- C9, witness for the amended theorem at concrete inputs: a strict
post-expiry miss with removal, and `set` writing `now + ttl`, for both
tiers. -/
theorem C9_amended_witness :
    CacheService.get [("k", ("v", (10 : ℚ)))] "k" 11 =
      (none, dictPop [("k", ("v", (10 : ℚ)))] "k") ∧
    TTLCache.get
        (TTLCache.mk 1024 3600 [("k", ("v", (10 : ℚ)))] : TTLCache String)
        "k" 11 =
      (none, { (TTLCache.mk 1024 3600 [("k", ("v", (10 : ℚ)))] :
          TTLCache String) with
        store := dictPop [("k", ("v", (10 : ℚ)))] "k" }) ∧
    dictGet (CacheService.set ([] : CacheStore String) "k" "v" 4 5) "k" =
      some ("v", 4 + 5) ∧
    dictGet (TTLCache.set (TTLCache.mk 1024 3600 [] : TTLCache String)
        "k" "v" (some 5) 4).store "k" =
      some ("v", 4 + 5) := by
  have hA := C9_amended_cache_expiry [("k", ("v", (10 : ℚ)))]
    (TTLCache.mk 1024 3600 [("k", ("v", (10 : ℚ)))]) "k" "v" 10 11 5
  have hB := C9_amended_cache_expiry ([] : CacheStore String)
    (TTLCache.mk 1024 3600 []) "k" "v" 0 4 5
  exact ⟨hA.1 (by decide) (by decide), hA.2.2.1 (by decide) (by decide),
    hB.2.2.2.2.1, hB.2.2.2.2.2⟩

/-- C10: `update` looks records up via the withdrawal-bypassing
`get_any`, so an authorized update of an already-withdrawn record never
fails `Withdrawn`: it succeeds, the supplied field is applied, `version`
is bumped when a field is supplied, and the tombstone stays in place. -/
theorem C10_update_bypasses_withdrawn (store : Store) (link_id : String)
    (u : Updates) (user_sub : String) (now : ℚ)
    (record : RegistryRecord) (t : Tombstone)
    (hrec : dictGet store link_id = some record)
    (ht : record.withdrawn = some t)
    (hauth : issuerCheck record.metadata user_sub = false) :
    ∃ record',
      RegistryService.update store link_id u user_sub now =
        (none, dictSet store link_id record') ∧
      record'.withdrawn = some t ∧
      record'.version =
        (if suppliesField u then record.version + 1 else record.version) ∧
      record'.target_uri =
        (if u.target_uri.isSome || u.targetUri.isSome then
          pyOr u.target_uri.join u.targetUri.join
        else record.target_uri) := by
  obtain ⟨record', heq, hv, _, hw, htg⟩ :=
    update_spec store link_id u user_sub now record hrec hauth
  exact ⟨record', heq, by rw [hw, ht], hv, htg⟩

/-- C10, witness: updating the withdrawn fixture record with a new
target by its issuer succeeds and bumps the version. -/
theorem C10_witness :
    ∃ record',
      RegistryService.update exStoreW "ID"
          { target_uri := some (some "https://new") } "alice" 7 =
        (none, dictSet exStoreW "ID" record') ∧
      record'.withdrawn = some { reason := some "gone", at_ := 1 } ∧
      record'.version =
        (if suppliesField { target_uri := some (some "https://new") } then
          exWithdrawn.version + 1
        else exWithdrawn.version) ∧
      record'.target_uri =
        (if ({ target_uri := some (some "https://new") } :
              Updates).target_uri.isSome ||
            ({ target_uri := some (some "https://new") } :
              Updates).targetUri.isSome then
          pyOr ({ target_uri := some (some "https://new") } :
              Updates).target_uri.join
            ({ target_uri := some (some "https://new") } :
              Updates).targetUri.join
        else exWithdrawn.target_uri) :=
  C10_update_bypasses_withdrawn exStoreW "ID"
    { target_uri := some (some "https://new") } "alice" 7 exWithdrawn
    { reason := some "gone", at_ := 1 } (by decide) (by decide)
    (by decide)
